import Mathlib

/-!
Verification development for the Boost.Compute header subset:
`boost/compute/algorithm/stable_sort.hpp`, `boost/compute/program.hpp` and
`boost/compute/type_traits/is_vector_type.hpp`.

The dispatch logic of `stable_sort` and the handle bookkeeping of the
`program` class are embedded shallowly: ranges become lists, the OpenCL
driver becomes an explicit oracle, and the driver-side reference counts
become an explicit map from handles to counts.  Routines that the headers
only include (`detail::radix_sort`, `detail::serial_insertion_sort`,
`boost::compute::reverse`, `vector_size`, `detail::get_object_info`) are
modelled from their documented behaviour; everything else is translated
directly from the source.
-/

/-! ## Sorting kernels (modelled) -/

/-- Modelled from the spec: one step of the serial insertion-sort kernel in
`detail/insertion_sort.hpp` (not present under src).  The kernel shifts
elements while `compare(value, a)` holds, so `x` is inserted after every
element `y` with `cmp y x` and before the first element that is not strictly
smaller; equal elements keep their relative order. -/
def insertLoop (cmp : α → α → Bool) (x : α) : List α → List α
  | [] => [x]
  | y :: ys => if cmp y x then y :: insertLoop cmp x ys else x :: y :: ys

/-- Modelled from the spec: `detail::serial_insertion_sort` (not present under
src), the stable insertion sort used by the generic `dispatch_stable_sort`
overload. -/
def serial_insertion_sort (cmp : α → α → Bool) : List α → List α
  | [] => []
  | x :: xs => insertLoop cmp x (serial_insertion_sort cmp xs)

/-- The comparator denoted by `less<T>` for a radix-sortable scalar type,
with values modelled as naturals. -/
def natLt (a b : Nat) : Bool := decide (a < b)

/-- The comparator denoted by `greater<T>` for a radix-sortable scalar type,
with values modelled as naturals. -/
def natGt (a b : Nat) : Bool := decide (b < a)

/-- Modelled from the spec: `detail::radix_sort` (not present under src)
sorts the range into ascending order and is stable.  It is realised here as
the stable ascending sort of the value list. -/
def radix_sort (xs : List Nat) : List Nat := serial_insertion_sort natLt xs

/-- A range is sorted for comparator `cmp` when no adjacent pair is
inverted: for neighbours `a` then `b`, `cmp b a` is false. -/
def SortedBy (cmp : α → α → Bool) (l : List α) : Prop :=
  List.Chain' (fun a b => cmp b a = false) l

/-- Two elements are equivalent for `cmp` when neither compares before the
other. -/
def eqvBy (cmp : α → α → Bool) (a b : α) : Bool := !cmp a b && !cmp b a

/-- `ys` preserves the relative order that the elements of each
`cmp`-equivalence class had in `xs`. -/
def StableFrom (cmp : α → α → Bool) (xs ys : List α) : Prop :=
  ∀ a, ys.filter (eqvBy cmp a) = xs.filter (eqvBy cmp a)

/-! ## The stable_sort dispatch (from stable_sort.hpp) -/

/-- The iterator category that drives overload resolution of
`dispatch_stable_sort`: a `buffer_iterator<T>` or any other iterator. -/
inductive IterKind where
  | buffer
  | generic
deriving DecidableEq

/-- The comparator shape that drives overload resolution of
`dispatch_stable_sort`: `less<T>`, `greater<T>`, or any other comparator. -/
inductive CmpKind where
  | less
  | greater
  | other
deriving DecidableEq

/-- The sorting routine a `dispatch_stable_sort` overload runs. -/
inductive Route where
  | radix
  | radixThenReverse
  | insertion
deriving DecidableEq

/-- Overload resolution of `detail::dispatch_stable_sort`: the two
specialised overloads require a `buffer_iterator<T>` with `T` radix
sortable (the `enable_if_c<is_radix_sortable<T>::value>` guard) and a
comparator that is exactly `less<T>` or `greater<T>`; every other
combination falls back to the generic template. -/
def dispatch_route : IterKind → Bool → CmpKind → Route
  | IterKind.buffer, true, CmpKind.less => Route.radix
  | IterKind.buffer, true, CmpKind.greater => Route.radixThenReverse
  | _, _, _ => Route.insertion

/-- A comparator argument for a `buffer_iterator` range of radix-sortable
values (modelled as naturals): `less<T>`, `greater<T>`, or an arbitrary
function object. -/
inductive NatCmp where
  | less
  | greater
  | other (f : Nat → Nat → Bool)

/-- The boolean comparison a `NatCmp` value denotes. -/
def NatCmp.eval : NatCmp → Nat → Nat → Bool
  | NatCmp.less => natLt
  | NatCmp.greater => natGt
  | NatCmp.other f => f

/-- The overload-resolution shape of a `NatCmp` comparator. -/
def NatCmp.kind : NatCmp → CmpKind
  | NatCmp.less => CmpKind.less
  | NatCmp.greater => CmpKind.greater
  | NatCmp.other _ => CmpKind.other

/-- `detail::dispatch_stable_sort` on a `buffer_iterator<T>` range:
`radix_sort` for `less<T>`, `radix_sort` followed by
`boost::compute::reverse` (modelled by `List.reverse`) for `greater<T>`,
and `serial_insertion_sort` in every other case. -/
def dispatch_stable_sort (radixSortable : Bool) (c : NatCmp) (xs : List Nat) :
    List Nat :=
  match dispatch_route IterKind.buffer radixSortable c.kind with
  | Route.radix => radix_sort xs
  | Route.radixThenReverse => (radix_sort xs).reverse
  | Route.insertion => serial_insertion_sort c.eval xs

/-- `detail::dispatch_stable_sort` for any non-buffer iterator: always the
serial insertion sort. -/
def dispatch_stable_sort_generic (cmp : α → α → Bool) (xs : List α) :
    List α :=
  serial_insertion_sort cmp xs

/-- `boost::compute::stable_sort(first, last, compare, queue)` on a
`buffer_iterator<T>` range: forwards to `dispatch_stable_sort`. -/
def stable_sort (radixSortable : Bool) (c : NatCmp) (xs : List Nat) :
    List Nat :=
  dispatch_stable_sort radixSortable c xs

/-- `boost::compute::stable_sort(first, last, compare, queue)` on a generic
iterator range: forwards to `dispatch_stable_sort`. -/
def stable_sort_generic (cmp : α → α → Bool) (xs : List α) : List α :=
  dispatch_stable_sort_generic cmp xs

/-- The two-argument overload `stable_sort(first, last, queue)` on a
`buffer_iterator<T>` range: constructs `less<value_type>` and calls the
comparator overload with it. -/
def stable_sort_default (radixSortable : Bool) (xs : List Nat) : List Nat :=
  stable_sort radixSortable NatCmp.less xs

/-- The two-argument overload `stable_sort(first, last, queue)` on a generic
iterator range whose value type carries a linear order: constructs
`less<value_type>` and calls the comparator overload with it. -/
def stable_sort_generic_default [LinearOrder α] (xs : List α) : List α :=
  stable_sort_generic (fun a b => decide (a < b)) xs

/-- Spec-side definition for the descending-order claim: sorting the range
in descending order of values (a stable sort with `greater`). -/
def sort_descending (xs : List Nat) : List Nat := serial_insertion_sort natGt xs

/-! ## is_vector_type (from is_vector_type.hpp) -/

/-- The OpenCL value types the `vector_size` / `is_vector_type` traits are
instantiated at in this model: scalar types and the multi-component vector
types. -/
inductive CType where
  | char
  | uchar
  | short
  | ushort
  | int
  | uint
  | long
  | ulong
  | float
  | double
  | int2
  | int4
  | int8
  | int16
  | float2
  | float4
  | float8
  | float16
deriving DecidableEq

/-- Modelled from the spec: `vector_size<T>` (header not present under src)
gives the number of components of `T`: 1 for every scalar type and N for a
vector type such as `float4_`. -/
def vector_size : CType → Nat
  | CType.char => 1
  | CType.uchar => 1
  | CType.short => 1
  | CType.ushort => 1
  | CType.int => 1
  | CType.uint => 1
  | CType.long => 1
  | CType.ulong => 1
  | CType.float => 1
  | CType.double => 1
  | CType.int2 => 2
  | CType.int4 => 4
  | CType.int8 => 8
  | CType.int16 => 16
  | CType.float2 => 2
  | CType.float4 => 4
  | CType.float8 => 8
  | CType.float16 => 16

/-- `is_vector_type<T>::value = (vector_size<T>::value != 1)`, translated
from `is_vector_type.hpp`. -/
def is_vector_type (t : CType) : Bool := vector_size t != 1

/-! ## The program class (from program.hpp) -/

/-- The OpenCL driver-side state relevant to `program` lifetime management:
the reference count of every `cl_program` handle.  Handles are naturals and
the null handle is `0`. -/
structure CLState where
  refCount : Nat → Nat

theorem CLState.ext' {s t : CLState} (h : s.refCount = t.refCount) : s = t := by
  cases s
  cases t
  simp_all

/-- The driver call `clRetainProgram`: increments the reference count of the
given handle. -/
def clRetainProgram (s : CLState) (h : Nat) : CLState :=
  ⟨fun k => if k = h then s.refCount k + 1 else s.refCount k⟩

/-- The driver call `clReleaseProgram`: decrements the reference count of
the given handle. -/
def clReleaseProgram (s : CLState) (h : Nat) : CLState :=
  ⟨fun k => if k = h then s.refCount k - 1 else s.refCount k⟩

/-- The `program` wrapper object: it owns the single data member
`m_program`, a `cl_program` handle (0 when null). -/
structure program where
  m_program : Nat
deriving DecidableEq

/-- The constructor `program(cl_program program, bool retain = true)`:
stores the handle and calls `clRetainProgram` iff the handle is non-null
and `retain` holds. -/
def program.ctor (s : CLState) (h : Nat) (retain : Bool) :
    program × CLState :=
  if h ≠ 0 ∧ retain = true then (⟨h⟩, clRetainProgram s h) else (⟨h⟩, s)

/-- The copy constructor `program(const program &other)`: copies the handle
and calls `clRetainProgram` iff it is non-null. -/
def program.copy (s : CLState) (other : program) : program × CLState :=
  if other.m_program ≠ 0 then
    (⟨other.m_program⟩, clRetainProgram s other.m_program)
  else
    (⟨other.m_program⟩, s)

/-- The copy assignment `operator=(const program &other)`.  `sameObject`
models the pointer test `this != &other`: when the two sides are the same
object nothing happens; otherwise the old non-null handle is released, the
new handle copied, and the new non-null handle retained. -/
def program.assign (s : CLState) (self other : program)
    (sameObject : Bool) : program × CLState :=
  if sameObject then (self, s)
  else
    let s1 := if self.m_program ≠ 0 then clReleaseProgram s self.m_program else s
    let s2 := if other.m_program ≠ 0 then clRetainProgram s1 other.m_program else s1
    (⟨other.m_program⟩, s2)

/-- The move constructor `program(program&& other)`: takes the handle,
nulls the source, and touches no reference count.  Returns the new object,
the updated source object and the (unchanged) driver state. -/
def program.moveCtor (s : CLState) (other : program) :
    (program × program) × CLState :=
  ((⟨other.m_program⟩, ⟨0⟩), s)

/-- The move assignment `operator=(program&& other)`: releases the old
non-null handle, takes the source's handle, and nulls the source. -/
def program.moveAssign (s : CLState) (self other : program) :
    (program × program) × CLState :=
  let s1 := if self.m_program ≠ 0 then clReleaseProgram s self.m_program else s
  ((⟨other.m_program⟩, ⟨0⟩), s1)

/-- The destructor `~program()`: releases the handle iff it is non-null. -/
def program.dtor (s : CLState) (self : program) : CLState :=
  if self.m_program ≠ 0 then clReleaseProgram s self.m_program else s

/-- `CL_SUCCESS` from the OpenCL headers. -/
def CL_SUCCESS : Int := 0

/-- The `options` argument `program::build` hands to `clBuildProgram`: the
null pointer when the string is empty, the string itself otherwise. -/
def build_options_arg (options : String) : Option String :=
  if options.isEmpty then none else some options

/-- `program::build(options)`: forwards the wrapped handle and the options
string to the driver entry point `clBuildProgram` (the oracle `d`) and
throws `opencl_error(ret)` iff the returned code is not `CL_SUCCESS`. -/
def program.build (d : Nat → Option String → Int) (self : program)
    (options : String) : Except Int Unit :=
  let ret : Int := d self.m_program (build_options_arg options)
  if ret ≠ CL_SUCCESS then Except.error ret else Except.ok ()

/-- `program::create_with_source(source, context)`: the driver oracle `d`
models `clCreateProgramWithSource` and returns the created handle together
with the error code.  A null handle raises `opencl_error(error)`; otherwise
the handle is adopted via `program(program_, false)`, which performs no
retain. -/
def program.create_with_source (s : CLState) (d : String → Nat × Int)
    (src : String) : Except Int (program × CLState) :=
  let r := d src
  if r.1 = 0 then Except.error r.2 else Except.ok (program.ctor s r.1 false)

/-- `program::create_with_binary(binary, binary_size, context)`: the driver
oracle `d` models `clCreateProgramWithBinary` and returns the created
handle, the error code and the binary status.  A null handle raises
`opencl_error(error)`; a non-`CL_SUCCESS` binary status raises
`opencl_error(binary_status)`; otherwise the handle is adopted via
`program(program_, false)`, which performs no retain. -/
def program.create_with_binary (s : CLState)
    (d : List Nat → Nat × Int × Int) (binary : List Nat) :
    Except Int (program × CLState) :=
  let r := d binary
  if r.1 = 0 then Except.error r.2.1
  else if r.2.2 ≠ CL_SUCCESS then Except.error r.2.2
  else Except.ok (program.ctor s r.1 false)

/-- `CL_PROGRAM_CONTEXT` from the OpenCL headers. -/
def CL_PROGRAM_CONTEXT : Nat := 0x1161

/-- `CL_PROGRAM_SOURCE` from the OpenCL headers. -/
def CL_PROGRAM_SOURCE : Nat := 0x1164

/-- Modelled from the spec: `detail::get_object_info` (header not present
under src) forwards the query function applied to the handle and the info
code, returning the driver's answer unchanged. -/
def get_object_info {V : Type} (query : Nat → Nat → V) (handle : Nat)
    (info : Nat) : V :=
  query handle info

/-- `program::get_info<T>(info)`: queries `clGetProgramInfo` (the oracle
`query`) on the wrapped handle through `detail::get_object_info`. -/
def program.get_info {V : Type} (query : Nat → Nat → V) (self : program)
    (info : Nat) : V :=
  get_object_info query self.m_program info

/-- Modelled from the spec: the `context` wrapper class (header not present
under src) as far as this development needs it, a holder of a `cl_context`
handle. -/
structure context where
  m_context : Nat

/-- `program::source()`: `get_info<std::string>(CL_PROGRAM_SOURCE)`. -/
def program.source (query : Nat → Nat → String) (self : program) : String :=
  program.get_info query self CL_PROGRAM_SOURCE

/-- `program::get_context()`: wraps
`get_info<cl_context>(CL_PROGRAM_CONTEXT)` in a `context`. -/
def program.get_context (query : Nat → Nat → Nat) (self : program) :
    context :=
  ⟨program.get_info query self CL_PROGRAM_CONTEXT⟩

/-! ## Lemmas about the modelled sorting kernels -/

theorem insertLoop_perm (cmp : α → α → Bool) (x : α) (l : List α) :
    List.Perm (insertLoop cmp x l) (x :: l) := by
  induction l with
  | nil => simp [insertLoop]
  | cons y ys ih =>
    by_cases h : cmp y x = true
    · simp only [insertLoop, h, if_true]
      exact (ih.cons y).trans (List.Perm.swap x y ys)
    · simp [insertLoop, h]

theorem insertLoop_head_cases (cmp : α → α → Bool) (x : α) (l : List α) :
    ∀ z ∈ (insertLoop cmp x l).head?, z = x ∨ z ∈ l.head? := by
  cases l with
  | nil => simp [insertLoop]
  | cons y ys =>
    by_cases h : cmp y x = true <;> simp [insertLoop, h]

theorem sorted_insertLoop (cmp : α → α → Bool)
    (hA : ∀ a b, cmp a b = true → cmp b a = false)
    (x : α) (l : List α) (hl : SortedBy cmp l) :
    SortedBy cmp (insertLoop cmp x l) := by
  induction l with
  | nil => simp [insertLoop, SortedBy]
  | cons y ys ih =>
    rw [SortedBy, List.chain'_cons'] at hl
    by_cases h : cmp y x = true
    · simp only [insertLoop, h, if_true]
      rw [SortedBy, List.chain'_cons']
      refine ⟨fun z hz => ?_, ih hl.2⟩
      rcases insertLoop_head_cases cmp x ys z hz with hzx | hzy
      · rw [hzx]
        exact hA y x h
      · exact hl.1 z hzy
    · have h' : cmp y x = false := by simpa using h
      simp only [insertLoop, h', if_false, Bool.false_eq_true]
      rw [SortedBy, List.chain'_cons]
      exact ⟨h', List.chain'_cons'.mpr hl⟩

theorem serial_insertion_sort_perm (cmp : α → α → Bool) (xs : List α) :
    List.Perm (serial_insertion_sort cmp xs) xs := by
  induction xs with
  | nil => simp [serial_insertion_sort]
  | cons x xs ih =>
    exact (insertLoop_perm cmp x _).trans (ih.cons x)

theorem sorted_serial_insertion_sort (cmp : α → α → Bool)
    (hA : ∀ a b, cmp a b = true → cmp b a = false) (xs : List α) :
    SortedBy cmp (serial_insertion_sort cmp xs) := by
  induction xs with
  | nil => simp [serial_insertion_sort, SortedBy]
  | cons x xs ih => exact sorted_insertLoop cmp hA x _ ih

theorem eqvBy_eq_true_iff (cmp : α → α → Bool) (a b : α) :
    eqvBy cmp a b = true ↔ (cmp a b = false ∧ cmp b a = false) := by
  simp [eqvBy]

theorem filter_insertLoop_of_neg (cmp : α → α → Bool) (p : α → Bool) (x : α)
    (l : List α) (hx : p x = false) :
    (insertLoop cmp x l).filter p = l.filter p := by
  induction l with
  | nil => simp [insertLoop, hx]
  | cons y ys ih =>
    by_cases h : cmp y x = true
    · simp only [insertLoop, h, if_true, List.filter_cons]
      cases hpy : p y <;> simp [hpy, ih]
    · simp [insertLoop, h, List.filter_cons, hx]

theorem filter_insertLoop_of_eqv (cmp : α → α → Bool)
    (hN : ∀ a b c, cmp a b = false → cmp b c = false → cmp a c = false)
    (a x : α) (l : List α) (hax : eqvBy cmp a x = true) :
    (insertLoop cmp x l).filter (eqvBy cmp a) = x :: l.filter (eqvBy cmp a) := by
  induction l with
  | nil => simp [insertLoop, hax]
  | cons y ys ih =>
    by_cases h : cmp y x = true
    · have hay : eqvBy cmp a y = false := by
        rcases hq : eqvBy cmp a y with _ | _
        · rfl
        · rcases (eqvBy_eq_true_iff cmp a y).mp hq with ⟨h2, h3⟩
          rcases (eqvBy_eq_true_iff cmp a x).mp hax with ⟨h4, h5⟩
          have hyx : cmp y x = false := hN y a x h3 h4
          rw [hyx] at h
          cases h
      simp only [insertLoop, h, if_true, List.filter_cons, hay]
      simp [ih, hay]
    · have h' : cmp y x = false := by simpa using h
      simp [insertLoop, h', List.filter_cons, hax]

theorem stable_serial_insertion_sort (cmp : α → α → Bool)
    (hN : ∀ a b c, cmp a b = false → cmp b c = false → cmp a c = false)
    (xs : List α) :
    StableFrom cmp xs (serial_insertion_sort cmp xs) := by
  intro a
  induction xs with
  | nil => rfl
  | cons x xs ih =>
    by_cases hax : eqvBy cmp a x = true
    · rw [serial_insertion_sort, filter_insertLoop_of_eqv cmp hN a x _ hax, ih,
        List.filter_cons]
      simp [hax]
    · have hax' : eqvBy cmp a x = false := by simpa using hax
      rw [serial_insertion_sort, filter_insertLoop_of_neg cmp _ x _ hax', ih,
        List.filter_cons]
      simp [hax']

theorem natLt_asymm : ∀ a b, natLt a b = true → natLt b a = false := by
  intro a b h
  simp only [natLt, decide_eq_true_eq] at h
  simp only [natLt, decide_eq_false_iff_not]
  omega

theorem natLt_negtrans :
    ∀ a b c, natLt a b = false → natLt b c = false → natLt a c = false := by
  intro a b c h1 h2
  simp only [natLt, decide_eq_false_iff_not] at h1 h2 ⊢
  omega

theorem natGt_asymm : ∀ a b, natGt a b = true → natGt b a = false := by
  intro a b h
  simp only [natGt, decide_eq_true_eq] at h
  simp only [natGt, decide_eq_false_iff_not]
  omega

theorem natGt_negtrans :
    ∀ a b c, natGt a b = false → natGt b c = false → natGt a c = false := by
  intro a b c h1 h2
  simp only [natGt, decide_eq_false_iff_not] at h1 h2 ⊢
  omega

theorem eqvBy_natGt_eq (a b : Nat) : eqvBy natGt a b = eqvBy natLt a b := by
  simp [eqvBy, natGt, natLt, Bool.and_comm]

theorem eqvBy_natGt_eq_true_iff (a b : Nat) :
    eqvBy natGt a b = true ↔ b = a := by
  simp only [eqvBy_eq_true_iff, natGt, decide_eq_false_iff_not]
  omega

theorem stable_radix_reverse (ys : List Nat) :
    StableFrom natGt ys (radix_sort ys).reverse := by
  intro a
  rw [List.filter_reverse]
  have h1 : (radix_sort ys).filter (eqvBy natGt a) = ys.filter (eqvBy natGt a) := by
    simp only [radix_sort]
    rw [List.filter_congr fun x _ => eqvBy_natGt_eq a x]
    rw [stable_serial_insertion_sort natLt natLt_negtrans ys a]
    rw [← List.filter_congr fun x _ => eqvBy_natGt_eq a x]
  rw [h1]
  have h2 : ∀ b ∈ ys.filter (eqvBy natGt a), b = a := by
    intro b hb
    exact (eqvBy_natGt_eq_true_iff a b).mp (List.mem_filter.mp hb).2
  rw [List.eq_replicate_of_mem h2]
  exact List.reverse_replicate _ a

theorem sorted_radix_reverse (ys : List Nat) :
    SortedBy natGt (radix_sort ys).reverse := by
  rw [SortedBy, List.chain'_reverse]
  have h := sorted_serial_insertion_sort natLt natLt_asymm ys
  rw [SortedBy] at h
  exact h.imp fun a b hab => by simpa [Function.flip_def, natGt, natLt] using hab

theorem radix_reverse_eq_sort_descending (xs : List Nat) :
    (radix_sort xs).reverse = sort_descending xs := by
  haveI : IsTrans Nat (fun a b : Nat => b ≤ a) :=
    ⟨fun a b c hab hbc => le_trans hbc hab⟩
  haveI : IsAntisymm Nat (fun a b : Nat => b ≤ a) :=
    ⟨fun a b h1 h2 => le_antisymm h2 h1⟩
  apply List.eq_of_perm_of_sorted (r := fun a b : Nat => b ≤ a)
  · exact ((radix_sort xs).reverse_perm.trans
      (serial_insertion_sort_perm natLt xs)).trans
      (serial_insertion_sort_perm natGt xs).symm
  · have h := sorted_radix_reverse xs
    rw [SortedBy] at h
    have h' := h.imp fun a b hab => by
      simpa [natGt, Nat.not_lt] using hab
    exact List.chain'_iff_pairwise.mp h'
  · have h := sorted_serial_insertion_sort natGt natGt_asymm xs
    rw [SortedBy] at h
    have h' := h.imp fun a b hab => by
      simpa [natGt, Nat.not_lt] using hab
    exact List.chain'_iff_pairwise.mp h'

/-! ## Lemmas about the program lifecycle model -/

theorem release_retain (s : CLState) (h : Nat) :
    clReleaseProgram (clRetainProgram s h) h = s := by
  apply CLState.ext'
  funext k
  by_cases hk : k = h <;> simp [clRetainProgram, clReleaseProgram, hk]

/-! ## Claim theorems -/

/-- C1: for every valid range and strict-weak-order comparator, after
`stable_sort` returns the range is a permutation of the input, sorted
according to the comparator, and elements that compare equal keep their
original relative order — on the generic insertion-sort path and on both
radix dispatch paths for `buffer_iterator` ranges of radix-sortable values
(the `greater<T>` path radix-sorts ascending and then reverses).  The
asymmetry and negative-transitivity hypotheses are the strict-weak-order
assumptions on the comparator. -/
theorem stable_sort_sorted_and_stable {α : Type} (cmp : α → α → Bool)
    (hA : ∀ a b, cmp a b = true → cmp b a = false)
    (hN : ∀ a b c, cmp a b = false → cmp b c = false → cmp a c = false)
    (xs : List α) (radixSortable : Bool) (c : NatCmp)
    (hcA : ∀ a b, c.eval a b = true → c.eval b a = false)
    (hcN : ∀ a b d, c.eval a b = false → c.eval b d = false →
      c.eval a d = false)
    (ys : List Nat) :
    (List.Perm (stable_sort_generic cmp xs) xs ∧
      SortedBy cmp (stable_sort_generic cmp xs) ∧
      StableFrom cmp xs (stable_sort_generic cmp xs)) ∧
    (List.Perm (stable_sort radixSortable c ys) ys ∧
      SortedBy c.eval (stable_sort radixSortable c ys) ∧
      StableFrom c.eval ys (stable_sort radixSortable c ys)) := by
  refine ⟨⟨serial_insertion_sort_perm cmp xs,
    sorted_serial_insertion_sort cmp hA xs,
    stable_serial_insertion_sort cmp hN xs⟩, ?_⟩
  cases c with
  | less =>
    cases radixSortable with
    | true =>
      refine ⟨?_, ?_, ?_⟩
      · show List.Perm (radix_sort ys) ys
        exact serial_insertion_sort_perm natLt ys
      · show SortedBy natLt (radix_sort ys)
        exact sorted_serial_insertion_sort natLt natLt_asymm ys
      · show StableFrom natLt ys (radix_sort ys)
        exact stable_serial_insertion_sort natLt natLt_negtrans ys
    | false =>
      exact ⟨serial_insertion_sort_perm natLt ys,
        sorted_serial_insertion_sort natLt natLt_asymm ys,
        stable_serial_insertion_sort natLt natLt_negtrans ys⟩
  | greater =>
    cases radixSortable with
    | true =>
      refine ⟨?_, sorted_radix_reverse ys, stable_radix_reverse ys⟩
      show List.Perm (radix_sort ys).reverse ys
      exact (radix_sort ys).reverse_perm.trans
        (serial_insertion_sort_perm natLt ys)
    | false =>
      exact ⟨serial_insertion_sort_perm natGt ys,
        sorted_serial_insertion_sort natGt natGt_asymm ys,
        stable_serial_insertion_sort natGt natGt_negtrans ys⟩
  | other f =>
    cases radixSortable with
    | true =>
      exact ⟨serial_insertion_sort_perm f ys,
        sorted_serial_insertion_sort f hcA ys,
        stable_serial_insertion_sort f hcN ys⟩
    | false =>
      exact ⟨serial_insertion_sort_perm f ys,
        sorted_serial_insertion_sort f hcA ys,
        stable_serial_insertion_sort f hcN ys⟩

/-- Witness for C1: the theorem applied to the comparator `less` on the
range `[3, 1, 2, 1]` for the generic path and to `greater<T>` on the
`buffer_iterator` range `[5, 2, 5, 1]` for the radix dispatch path. -/
theorem stable_sort_sorted_and_stable_witness :
    (List.Perm (stable_sort_generic natLt [3, 1, 2, 1]) [3, 1, 2, 1] ∧
      SortedBy natLt (stable_sort_generic natLt [3, 1, 2, 1]) ∧
      StableFrom natLt [3, 1, 2, 1] (stable_sort_generic natLt [3, 1, 2, 1])) ∧
    (List.Perm (stable_sort true NatCmp.greater [5, 2, 5, 1]) [5, 2, 5, 1] ∧
      SortedBy (NatCmp.eval NatCmp.greater)
        (stable_sort true NatCmp.greater [5, 2, 5, 1]) ∧
      StableFrom (NatCmp.eval NatCmp.greater) [5, 2, 5, 1]
        (stable_sort true NatCmp.greater [5, 2, 5, 1])) :=
  stable_sort_sorted_and_stable natLt natLt_asymm natLt_negtrans
    [3, 1, 2, 1] true NatCmp.greater natGt_asymm natGt_negtrans [5, 2, 5, 1]

/-- C2: `dispatch_stable_sort` selects a radix routine exactly when the
range is a `buffer_iterator` range of a radix-sortable type and the
comparator is `less<T>` (plain radix sort) or `greater<T>` (radix sort then
reverse), and the serial insertion sort in every other combination; the
`stable_sort` entry points run exactly the selected routine. -/
theorem dispatch_invokes_exactly_one (ik : IterKind) (rs : Bool)
    (ck : CmpKind) :
    ((dispatch_route ik rs ck = Route.radix ∨
        dispatch_route ik rs ck = Route.radixThenReverse) ↔
      (ik = IterKind.buffer ∧ rs = true ∧
        (ck = CmpKind.less ∨ ck = CmpKind.greater))) ∧
    (dispatch_route ik rs ck = Route.insertion ↔
      ¬(ik = IterKind.buffer ∧ rs = true ∧
        (ck = CmpKind.less ∨ ck = CmpKind.greater))) ∧
    (dispatch_route ik rs ck = Route.radix ↔
      (ik = IterKind.buffer ∧ rs = true ∧ ck = CmpKind.less)) ∧
    (dispatch_route ik rs ck = Route.radixThenReverse ↔
      (ik = IterKind.buffer ∧ rs = true ∧ ck = CmpKind.greater)) ∧
    (∀ (c : NatCmp) (xs : List Nat),
      stable_sort rs c xs =
        match dispatch_route IterKind.buffer rs c.kind with
        | Route.radix => radix_sort xs
        | Route.radixThenReverse => (radix_sort xs).reverse
        | Route.insertion => serial_insertion_sort c.eval xs) ∧
    (∀ (f : Nat → Nat → Bool) (xs : List Nat),
      stable_sort_generic f xs = serial_insertion_sort f xs) := by
  refine ⟨?_, ?_, ?_, ?_, fun c xs => rfl, fun f xs => rfl⟩ <;>
    cases ik <;> cases rs <;> cases ck <;> simp [dispatch_route]

/-- C3: dispatching `stable_sort` with `greater<T>` on a radix-sortable
`buffer_iterator` range — radix sort ascending followed by reverse — yields
exactly the range sorted in descending order of values. -/
theorem greater_dispatch_eq_sort_descending (xs : List Nat) :
    dispatch_stable_sort true NatCmp.greater xs = sort_descending xs ∧
    (radix_sort xs).reverse = sort_descending xs :=
  ⟨radix_reverse_eq_sort_descending xs, radix_reverse_eq_sort_descending xs⟩

/-- C4: the `program` class keeps the driver reference count balanced: the
retaining constructor and the copy constructor increment a non-null handle
by exactly one and touch no other handle, the non-retaining constructor
touches nothing, copy assignment releases the old non-null handle and
retains the new non-null handle, move construction and move assignment
transfer the handle and null the source without a retain, destruction
releases a non-null handle exactly once, null handles are never retained or
released, and each construct/destroy pairing restores the original
state. -/
theorem program_refcount_balanced (s : CLState) (h g k : Nat)
    (hh : h ≠ 0) (hg : g ≠ 0) (hk : k ≠ h) :
    ((program.ctor s h true).2.refCount h = s.refCount h + 1) ∧
    ((program.ctor s h true).2.refCount k = s.refCount k) ∧
    ((program.ctor s h true).1 = program.mk h) ∧
    ((program.ctor s h false).2 = s) ∧
    ((program.ctor s 0 true).2 = s) ∧
    (program.copy s (program.mk h) = (program.mk h, clRetainProgram s h)) ∧
    (program.copy s (program.mk 0) = (program.mk 0, s)) ∧
    (program.assign s (program.mk h) (program.mk g) false =
      (program.mk g, clRetainProgram (clReleaseProgram s h) g)) ∧
    (program.assign s (program.mk 0) (program.mk g) false =
      (program.mk g, clRetainProgram s g)) ∧
    (program.assign s (program.mk h) (program.mk 0) false =
      (program.mk 0, clReleaseProgram s h)) ∧
    (program.assign s (program.mk 0) (program.mk 0) false =
      (program.mk 0, s)) ∧
    (program.moveCtor s (program.mk h) = ((program.mk h, program.mk 0), s)) ∧
    (program.moveAssign s (program.mk h) (program.mk g) =
      ((program.mk g, program.mk 0), clReleaseProgram s h)) ∧
    (program.moveAssign s (program.mk 0) (program.mk g) =
      ((program.mk g, program.mk 0), s)) ∧
    (program.dtor s (program.mk h) = clReleaseProgram s h) ∧
    (program.dtor s (program.mk 0) = s) ∧
    (program.dtor (program.ctor s h true).2 (program.ctor s h true).1 = s) ∧
    (program.dtor (program.copy s (program.mk h)).2
      (program.copy s (program.mk h)).1 = s) ∧
    (program.dtor
      (program.dtor (program.moveCtor s (program.mk h)).2
        (program.moveCtor s (program.mk h)).1.2)
      (program.moveCtor s (program.mk h)).1.1 = clReleaseProgram s h) := by
  refine ⟨?_, ?_, ?_, ?_, ?_, ?_, ?_, ?_, ?_, ?_, ?_, ?_, ?_, ?_, ?_, ?_,
    ?_, ?_, ?_⟩
  · simp [program.ctor, hh, clRetainProgram]
  · simp [program.ctor, hh, clRetainProgram, hk]
  · simp [program.ctor, hh]
  · simp [program.ctor]
  · simp [program.ctor]
  · simp [program.copy, hh]
  · simp [program.copy]
  · simp [program.assign, hh, hg]
  · simp [program.assign, hg]
  · simp [program.assign, hh]
  · simp [program.assign]
  · simp [program.moveCtor]
  · simp [program.moveAssign, hh]
  · simp [program.moveAssign]
  · simp [program.dtor, hh]
  · simp [program.dtor]
  · simp [program.ctor, program.dtor, hh, release_retain]
  · simp [program.copy, program.dtor, hh, release_retain]
  · simp [program.moveCtor, program.dtor, hh]

/-- Witness for C4: the theorem applied to a state where every handle has
reference count 2, the handles 5 and 7, and the observer handle 9. -/
theorem program_refcount_balanced_witness :
    ((program.ctor (CLState.mk fun _ => 2) 5 true).2.refCount 5 =
      (CLState.mk fun _ => 2).refCount 5 + 1) ∧
    ((program.ctor (CLState.mk fun _ => 2) 5 true).2.refCount 9 =
      (CLState.mk fun _ => 2).refCount 9) ∧
    ((program.ctor (CLState.mk fun _ => 2) 5 true).1 = program.mk 5) ∧
    ((program.ctor (CLState.mk fun _ => 2) 5 false).2 =
      (CLState.mk fun _ => 2)) ∧
    ((program.ctor (CLState.mk fun _ => 2) 0 true).2 =
      (CLState.mk fun _ => 2)) ∧
    (program.copy (CLState.mk fun _ => 2) (program.mk 5) =
      (program.mk 5, clRetainProgram (CLState.mk fun _ => 2) 5)) ∧
    (program.copy (CLState.mk fun _ => 2) (program.mk 0) =
      (program.mk 0, (CLState.mk fun _ => 2))) ∧
    (program.assign (CLState.mk fun _ => 2) (program.mk 5) (program.mk 7)
        false =
      (program.mk 7,
        clRetainProgram (clReleaseProgram (CLState.mk fun _ => 2) 5) 7)) ∧
    (program.assign (CLState.mk fun _ => 2) (program.mk 0) (program.mk 7)
        false =
      (program.mk 7, clRetainProgram (CLState.mk fun _ => 2) 7)) ∧
    (program.assign (CLState.mk fun _ => 2) (program.mk 5) (program.mk 0)
        false =
      (program.mk 0, clReleaseProgram (CLState.mk fun _ => 2) 5)) ∧
    (program.assign (CLState.mk fun _ => 2) (program.mk 0) (program.mk 0)
        false =
      (program.mk 0, (CLState.mk fun _ => 2))) ∧
    (program.moveCtor (CLState.mk fun _ => 2) (program.mk 5) =
      ((program.mk 5, program.mk 0), (CLState.mk fun _ => 2))) ∧
    (program.moveAssign (CLState.mk fun _ => 2) (program.mk 5)
        (program.mk 7) =
      ((program.mk 7, program.mk 0),
        clReleaseProgram (CLState.mk fun _ => 2) 5)) ∧
    (program.moveAssign (CLState.mk fun _ => 2) (program.mk 0)
        (program.mk 7) =
      ((program.mk 7, program.mk 0), (CLState.mk fun _ => 2))) ∧
    (program.dtor (CLState.mk fun _ => 2) (program.mk 5) =
      clReleaseProgram (CLState.mk fun _ => 2) 5) ∧
    (program.dtor (CLState.mk fun _ => 2) (program.mk 0) =
      (CLState.mk fun _ => 2)) ∧
    (program.dtor (program.ctor (CLState.mk fun _ => 2) 5 true).2
      (program.ctor (CLState.mk fun _ => 2) 5 true).1 =
      (CLState.mk fun _ => 2)) ∧
    (program.dtor (program.copy (CLState.mk fun _ => 2) (program.mk 5)).2
      (program.copy (CLState.mk fun _ => 2) (program.mk 5)).1 =
      (CLState.mk fun _ => 2)) ∧
    (program.dtor
      (program.dtor (program.moveCtor (CLState.mk fun _ => 2)
          (program.mk 5)).2
        (program.moveCtor (CLState.mk fun _ => 2) (program.mk 5)).1.2)
      (program.moveCtor (CLState.mk fun _ => 2) (program.mk 5)).1.1 =
      clReleaseProgram (CLState.mk fun _ => 2) 5) :=
  program_refcount_balanced (CLState.mk fun _ => 2) 5 7 9 (by decide)
    (by decide) (by decide)

/-- C5: `program::build` forwards the wrapped handle and the options string
to `clBuildProgram` and throws an `opencl_error` carrying the driver's
return code precisely when that code is not `CL_SUCCESS`; on `CL_SUCCESS`
it returns normally. -/
theorem program_build_error_iff (d : Nat → Option String → Int)
    (p : program) (options : String) :
    (program.build d p options = Except.ok () ↔
      d p.m_program (build_options_arg options) = CL_SUCCESS) ∧
    (∀ e : Int, program.build d p options = Except.error e ↔
      (e = d p.m_program (build_options_arg options) ∧ e ≠ CL_SUCCESS)) := by
  constructor
  · by_cases hret : d p.m_program (build_options_arg options) = CL_SUCCESS <;>
      simp [program.build, hret]
  · intro e
    by_cases hret : d p.m_program (build_options_arg options) = CL_SUCCESS
    · rw [program.build, if_neg (by simp [hret])]
      constructor
      · intro he
        cases he
      · rintro ⟨rfl, hne⟩
        exact absurd hret (by simp at hne; exact hne)
    · rw [program.build, if_pos hret]
      constructor
      · intro he
        injection he with he'
        refine ⟨he'.symm, ?_⟩
        rw [← he']
        exact hret
      · rintro ⟨rfl, _⟩
        rfl

/-- C6: `create_with_source` throws an `opencl_error` carrying the driver's
error code when `clCreateProgramWithSource` returns the null handle, and
`create_with_binary` additionally throws one carrying the binary status
when that status is not `CL_SUCCESS`; on success each returns a program
that adopts the driver handle without a retain, leaving every reference
count unchanged. -/
theorem program_create_error_forwarding (s : CLState) (h : Nat)
    (hh : h ≠ 0) (err bstat : Int) (hb : bstat ≠ CL_SUCCESS) (src : String)
    (bin : List Nat) :
    (program.create_with_source s (fun _ => (0, err)) src =
      Except.error err) ∧
    (program.create_with_source s (fun _ => (h, err)) src =
      Except.ok (program.mk h, s)) ∧
    (program.create_with_binary s (fun _ => (0, err, bstat)) bin =
      Except.error err) ∧
    (program.create_with_binary s (fun _ => (h, err, bstat)) bin =
      Except.error bstat) ∧
    (program.create_with_binary s (fun _ => (h, err, CL_SUCCESS)) bin =
      Except.ok (program.mk h, s)) := by
  refine ⟨?_, ?_, ?_, ?_, ?_⟩
  · simp [program.create_with_source]
  · simp [program.create_with_source, hh, program.ctor]
  · simp [program.create_with_binary]
  · simp [program.create_with_binary, hh, hb]
  · simp [program.create_with_binary, hh, program.ctor]

/-- Witness for C6: the theorem applied to the non-null handle 7, the error
code -44 and the binary status -42 in a state where every handle has
reference count 1. -/
theorem program_create_error_forwarding_witness :
    (program.create_with_source (CLState.mk fun _ => 1)
      (fun _ => (0, (-44 : Int))) "" = Except.error (-44 : Int)) ∧
    (program.create_with_source (CLState.mk fun _ => 1)
      (fun _ => (7, (-44 : Int))) "" =
      Except.ok (program.mk 7, CLState.mk fun _ => 1)) ∧
    (program.create_with_binary (CLState.mk fun _ => 1)
      (fun _ => (0, (-44 : Int), (-42 : Int))) [] =
      Except.error (-44 : Int)) ∧
    (program.create_with_binary (CLState.mk fun _ => 1)
      (fun _ => (7, (-44 : Int), (-42 : Int))) [] =
      Except.error (-42 : Int)) ∧
    (program.create_with_binary (CLState.mk fun _ => 1)
      (fun _ => (7, (-44 : Int), CL_SUCCESS)) [] =
      Except.ok (program.mk 7, CLState.mk fun _ => 1)) :=
  program_create_error_forwarding (CLState.mk fun _ => 1) 7 (by decide)
    (-44) (-42) (by decide) "" []

/-- C7: `program::get_info` returns the `clGetProgramInfo` query result on
the wrapped handle unchanged; `source()` is exactly the
`CL_PROGRAM_SOURCE` query and `get_context()` wraps exactly the
`CL_PROGRAM_CONTEXT` query. -/
theorem program_get_info_forwards :
    (∀ (V : Type) (query : Nat → Nat → V) (p : program) (info : Nat),
      program.get_info query p info = query p.m_program info) ∧
    (∀ (qs : Nat → Nat → String) (p : program),
      program.source qs p = qs p.m_program CL_PROGRAM_SOURCE) ∧
    (∀ (qc : Nat → Nat → Nat) (p : program),
      (program.get_context qc p).m_context =
        qc p.m_program CL_PROGRAM_CONTEXT) :=
  ⟨fun _ _ _ _ => rfl, fun _ _ => rfl, fun _ _ => rfl⟩

/-- C8: the two-argument `stable_sort(first, last, queue)` overload
produces exactly the result of the comparator overload called with
`less<value_type>`, on the buffer-iterator path and on the generic path. -/
theorem stable_sort_two_arg_eq_less {α : Type} [LinearOrder α]
    (radixSortable : Bool) (xs : List Nat) (ys : List α) :
    stable_sort_default radixSortable xs =
      stable_sort radixSortable NatCmp.less xs ∧
    stable_sort_generic_default ys =
      stable_sort_generic (fun a b => decide (a < b)) ys :=
  ⟨rfl, rfl⟩

/-- C9: `is_vector_type<T>::value` holds exactly when
`vector_size<T>::value` differs from 1; scalar `int` classifies as false
and `float4_` as true. -/
theorem is_vector_type_iff_size_ne_one :
    (∀ t, is_vector_type t = true ↔ vector_size t ≠ 1) ∧
    is_vector_type CType.int = false ∧
    is_vector_type CType.float4 = true := by
  refine ⟨fun t => ?_, rfl, rfl⟩
  cases t <;> decide

/-- C10: self-assignment of a `program` (`p = p`, both sides the same
object) returns the object unchanged and performs no retain or release, so
the driver state is untouched. -/
theorem program_self_assignment_noop (s : CLState) (p : program) :
    program.assign s p p true = (p, s) := by
  simp [program.assign]
